import Mathlib

/-
Verification of the message-routing environment in `metagpt/environment.py`.

Embedding notes.  A Python `dict` (insertion-ordered, 3.7+) is modelled as an
association list with an insert that updates the first matching key in place
and otherwise appends.  A `Role` is a mutable Python object; we model object
identity as a `Nat` and keep each object's mutable state in a heap
(`Env.states : id -> RoleState`).  The registry `Environment.roles` therefore
maps profile strings to role ids, and the subscription table
`Environment.consumers` maps role ids to tag sets, exactly mirroring the two
dicts of the source.  A `Message` carries its `dump()` string and its pure
`is_recipient` predicate as a function field, per the message contract.
Logging is modelled by returning the emitted log lines.
-/

namespace MetaGPT

/-- Python dict lookup `d.get(k, None)`: value of the first entry whose key
equals `k`, if any. -/
def dictGet? {α β : Type} [BEq α] : List (α × β) → α → Option β
  | [], _ => none
  | p :: rest, k => if p.1 == k then some p.2 else dictGet? rest k

/-- Python dict store `d[k] = v`: update the entry for `k` in place when
present, otherwise append a fresh entry (insertion order preserved). -/
def dictInsert {α β : Type} [BEq α] : List (α × β) → α → β → List (α × β)
  | [], k, v => [(k, v)]
  | p :: rest, k, v => if p.1 == k then (k, v) :: rest else p :: dictInsert rest k v

/-- Keys of a dict, in insertion order. -/
def dkeys {α β : Type} (d : List (α × β)) : List α := d.map Prod.fst

/-- Values of a dict, in insertion order (Python `d.values()`). -/
def dvalues {α β : Type} (d : List (α × β)) : List β := d.map Prod.snd

/-- Message contract consumed by the environment: a loggable dump string and
the pure recipient predicate `is_recipient(tags)`. -/
structure Message where
  dump : String
  is_recipient : List String → Bool

/-- State of one Role object as seen by the environment: its profile key, its
idleness flag, its subscribed tags (read at registration time), and its inbox
(messages delivered via `put_message`). -/
structure RoleState where
  profile : String
  is_idle : Bool
  subscribed_tags : List String
  inbox : List Message

/-- The `Environment`: registry `roles` (profile -> role id), subscription
table `consumers` (role id -> tag set), and the heap of role objects.  The
`set_env` back-reference installed on registration has no observable effect
on any environment operation, so it is not part of the state. -/
structure Env where
  roles : List (String × Nat) := []
  consumers : List (Nat × List String) := []
  states : List (Nat × RoleState) := []

/-- Source: `set_subscribed_tags(self, obj, tags): self.consumers[obj] = tags`. -/
def set_subscribed_tags (env : Env) (rid : Nat) (tags : List String) : Env :=
  { env with consumers := dictInsert env.consumers rid tags }

/-- Source: `get_subscribed_tags(self, obj): return self.consumers.get(obj, {})`
(the default is empty). -/
def get_subscribed_tags (env : Env) (rid : Nat) : List String :=
  (dictGet? env.consumers rid).getD []

/-- Source: `add_role(self, role)`: sets the role's env back-reference (no
observable effect here), stores the role in `self.roles[role.profile]`, then
calls `set_subscribed_tags(role, role.subscribed_tags)`.  The role object
itself enters the heap. -/
def add_role (env : Env) (rid : Nat) (st : RoleState) : Env :=
  let env1 : Env := { env with states := dictInsert env.states rid st }
  let env2 : Env := { env1 with roles := dictInsert env1.roles st.profile rid }
  set_subscribed_tags env2 rid st.subscribed_tags

/-- Source: `add_roles(self, roles)`: `add_role` on each element in order. -/
def add_roles (env : Env) (rs : List (Nat × RoleState)) : Env :=
  rs.foldl (fun e p => add_role e p.1 p.2) env

/-- Delivery `obj.put_message(message)`: append the message to the role
object's inbox. -/
def put_message (env : Env) (rid : Nat) (m : Message) : Env :=
  match dictGet? env.states rid with
  | some st =>
      { env with states := dictInsert env.states rid { st with inbox := st.inbox ++ [m] } }
  | none => env

/-- The routing loop of `publish_message`:
`for obj, subscribed_tags in self.consumers.items(): if message.is_recipient(subscribed_tags): obj.put_message(message); found = True`.
Returns the updated environment and the final `found` flag. -/
def deliver_loop (m : Message) : List (Nat × List String) → Env → Bool → Env × Bool
  | [], env, found => (env, found)
  | p :: rest, env, found =>
      if m.is_recipient p.2 then deliver_loop m rest (put_message env p.1 m) true
      else deliver_loop m rest env found

/-- Result of `publish_message`: the mutated environment, the return value,
and the log lines emitted (info line always, warning line when no recipient
matched). -/
structure PublishResult where
  env : Env
  ret : Bool
  logs : List String

/-- Source: `publish_message(self, message) -> bool`: log the dump, run the
routing loop over `self.consumers`, warn if no recipient was found, and
return `True` unconditionally. -/
def publish_message (env : Env) (m : Message) : PublishResult :=
  let infoLine := String.append "publish_message: " m.dump
  let r := deliver_loop m env.consumers env false
  let warnLines := if r.2 then [] else [String.append "Message no recipients: " m.dump]
  { env := r.1, ret := true, logs := infoLine :: warnLines }

/-- Source: `get_roles(self)`: returns the full profile -> role mapping. -/
def get_roles (env : Env) : List (String × Nat) := env.roles

/-- Source: `get_role(self, name)`: `return self.roles.get(name, None)`. -/
def get_role (env : Env) (name : String) : Option Nat :=
  dictGet? env.roles name

/-- Source: the `is_idle` property: `for r in self.roles.values(): if not r.is_idle: return False; return True`.
A registered id always has a heap entry; the default `true` branch for a
dangling id is unreachable on environments built by the public operations. -/
def is_idle (env : Env) : Bool :=
  env.roles.all fun p => ((dictGet? env.states p.2).map RoleState.is_idle).getD true

/-- Step of one round: invoke role `p`'s `run()` (its unit of work `behave`
acts on the role's own state) and record the invocation in the trace. -/
def round_step (behave : Nat → RoleState → RoleState) (acc : Env × List Nat)
    (p : String × Nat) : Env × List Nat :=
  let e := acc.1
  let e2 := match dictGet? e.states p.2 with
    | some st => { e with states := dictInsert e.states p.2 (behave p.2 st) }
    | none => e
  (e2, acc.2 ++ [p.2])

/-- One round of `run`: fire every registered role's `run()` and wait for
all of them (`asyncio.gather`).  The cooperative concurrent batch is
linearized in registry order; each unit of work only touches its own role's
state.  Also returns the list of role ids whose `run()` was invoked, as an
instrumentation trace. -/
def run_round (behave : Nat → RoleState → RoleState) (env : Env) : Env × List Nat :=
  env.roles.foldl (round_step behave) (env, [])

/-- Result of `run`: final environment, the per-round invocation traces, and
the `is idle` value logged after each round. -/
structure RunResult where
  env : Env
  rounds : List (List Nat)
  idleLogs : List Bool

/-- Source: `run(self, k=1)`: `k` sequential rounds; each round gathers all
roles' `run()` futures, then logs `is_idle`.  `for _ in range(k)` is modelled
by recursion on `k`, executing rounds front to back. -/
def run (behave : Nat → RoleState → RoleState) (env : Env) : Nat → RunResult
  | 0 => { env := env, rounds := [], idleLogs := [] }
  | Nat.succ k =>
      let r := run_round behave env
      let rest := run behave r.1 k
      { env := rest.env, rounds := r.2 :: rest.rounds, idleLogs := is_idle r.1 :: rest.idleLogs }

/-- The environment's public operations, for stating invariants over
arbitrary call sequences. -/
inductive Op where
  | addRole (rid : Nat) (st : RoleState)
  | addRoles (rs : List (Nat × RoleState))
  | setTags (rid : Nat) (tags : List String)
  | publish (m : Message)
  | runRounds (behave : Nat → RoleState → RoleState) (k : Nat)

/-- Apply one public operation to the environment. -/
def applyOp (env : Env) : Op → Env
  | Op.addRole rid st => add_role env rid st
  | Op.addRoles rs => add_roles env rs
  | Op.setTags rid tags => set_subscribed_tags env rid tags
  | Op.publish m => (publish_message env m).env
  | Op.runRounds behave k => (run behave env k).env

/-- Apply a sequence of public operations, first to last. -/
def applyOps (env : Env) (ops : List Op) : Env :=
  ops.foldl applyOp env

section DictLemmas

variable {α β : Type} [BEq α] [LawfulBEq α]

theorem dictGet?_insert_self (d : List (α × β)) (k : α) (v : β) :
    dictGet? (dictInsert d k v) k = some v := by
  induction d with
  | nil => simp [dictInsert, dictGet?]
  | cons p rest ih =>
      by_cases h : p.1 = k
      · simp [dictInsert, dictGet?, h]
      · simp [dictInsert, dictGet?, h, ih]

theorem dictGet?_insert_ne (d : List (α × β)) (k k' : α) (v : β) (hne : k' ≠ k) :
    dictGet? (dictInsert d k v) k' = dictGet? d k' := by
  have hkk : ¬ (k = k') := fun he => hne he.symm
  induction d with
  | nil => simp [dictInsert, dictGet?, hkk]
  | cons p rest ih =>
      by_cases h : p.1 = k
      · subst h
        simp [dictInsert, dictGet?, hkk]
      · by_cases h' : p.1 = k'
        · simp [dictInsert, dictGet?, h, h', hne]
        · simp [dictInsert, dictGet?, h, h', ih]

theorem mem_dkeys_insert (d : List (α × β)) (k k' : α) (v : β) :
    k' ∈ dkeys (dictInsert d k v) ↔ k' = k ∨ k' ∈ dkeys d := by
  induction d with
  | nil => simp [dictInsert, dkeys]
  | cons p rest ih =>
      by_cases h : p.1 = k
      · subst h
        simp [dictInsert, dkeys]
      · simp only [dkeys, List.map_cons, List.mem_cons] at ih ⊢
        rw [dictInsert, if_neg (by simp [h])]
        simp only [List.map_cons, List.mem_cons]
        rw [ih]
        tauto

theorem nodup_dkeys_insert (d : List (α × β)) (k : α) (v : β)
    (hd : (dkeys d).Nodup) : (dkeys (dictInsert d k v)).Nodup := by
  induction d with
  | nil => simp [dictInsert, dkeys]
  | cons p rest ih =>
      simp only [dkeys, List.map_cons, List.nodup_cons] at hd
      by_cases h : p.1 = k
      · subst h
        simpa [dictInsert, dkeys] using hd
      · have h2 := ih hd.2
        rw [dictInsert, if_neg (by simp [h])]
        simp only [dkeys, List.map_cons, List.nodup_cons]
        refine ⟨fun hmem => ?_, h2⟩
        rcases (mem_dkeys_insert rest k p.1 v).1 (by simpa [dkeys] using hmem) with h' | h'
        · exact h h'
        · exact hd.1 (by simpa [dkeys] using h')

theorem mem_dvalues_insert (d : List (α × β)) (k : α) (v v' : β)
    (h : v' ∈ dvalues (dictInsert d k v)) : v' = v ∨ v' ∈ dvalues d := by
  induction d with
  | nil => simpa [dictInsert, dvalues] using h
  | cons p rest ih =>
      by_cases hk : p.1 = k
      · rw [dictInsert, if_pos (by simp [hk])] at h
        simp only [dvalues, List.map_cons, List.mem_cons] at h ⊢
        tauto
      · rw [dictInsert, if_neg (by simp [hk])] at h
        simp only [dvalues, List.map_cons, List.mem_cons] at h ⊢
        rcases h with h | h
        · exact Or.inr (Or.inl h)
        · rcases ih (by simpa [dvalues] using h) with h' | h'
          · exact Or.inl h'
          · exact Or.inr (Or.inr (by simpa [dvalues] using h'))

theorem dictGet?_eq_none_iff (d : List (α × β)) (k : α) :
    dictGet? d k = none ↔ k ∉ dkeys d := by
  induction d with
  | nil => simp [dictGet?, dkeys]
  | cons p rest ih =>
      by_cases h : p.1 = k
      · simp [dictGet?, h, dkeys]
      · have h' : ¬ (k = p.1) := fun he => h he.symm
        simp [dictGet?, h, dkeys, ih, h']

theorem dictGet?_mem (d : List (α × β)) (k : α) (v : β)
    (h : dictGet? d k = some v) : (k, v) ∈ d := by
  induction d with
  | nil => simp [dictGet?] at h
  | cons p rest ih =>
      by_cases hk : p.1 = k
      · rw [dictGet?, if_pos (by simp [hk])] at h
        have hp : p = (k, v) := by
          cases p
          simp only [Option.some.injEq] at h
          simp_all
        exact List.mem_cons.2 (Or.inl hp.symm)
      · rw [dictGet?, if_neg (by simp [hk])] at h
        exact List.mem_cons.2 (Or.inr (ih h))

theorem mem_dictGet? (d : List (α × β)) (k : α) (v : β)
    (hnd : (dkeys d).Nodup) (h : (k, v) ∈ d) : dictGet? d k = some v := by
  induction d with
  | nil => simp at h
  | cons p rest ih =>
      simp only [dkeys, List.map_cons, List.nodup_cons] at hnd
      rcases List.mem_cons.1 h with h' | h'
      · rw [← h']
        simp [dictGet?]
      · have hne : p.1 ≠ k := by
          intro he
          apply hnd.1
          have hmem : k ∈ List.map Prod.fst rest := List.mem_map_of_mem Prod.fst h'
          rw [he]
          exact hmem
        rw [dictGet?, if_neg (by simp [hne])]
        exact ih hnd.2 h'

end DictLemmas

/-- Observation: the inbox of role object `rid` (empty when the id is not in
the heap, which cannot happen for registered roles). -/
def inboxOf (env : Env) (rid : Nat) : List Message :=
  ((dictGet? env.states rid).map RoleState.inbox).getD []

section EnvLemmas

theorem put_message_roles (env : Env) (rid : Nat) (m : Message) :
    (put_message env rid m).roles = env.roles := by
  cases hd : dictGet? env.states rid <;> simp [put_message, hd]

theorem put_message_consumers (env : Env) (rid : Nat) (m : Message) :
    (put_message env rid m).consumers = env.consumers := by
  cases hd : dictGet? env.states rid <;> simp [put_message, hd]

theorem mem_states_put_message (env : Env) (rid' : Nat) (m : Message) (rid : Nat)
    (h : rid ∈ dkeys env.states) : rid ∈ dkeys (put_message env rid' m).states := by
  cases hd : dictGet? env.states rid' with
  | none => simpa [put_message, hd] using h
  | some st =>
      simp only [put_message, hd]
      exact (mem_dkeys_insert _ _ _ _).2 (Or.inr h)

theorem inboxOf_put_message_self (env : Env) (rid : Nat) (m : Message)
    (h : rid ∈ dkeys env.states) :
    inboxOf (put_message env rid m) rid = inboxOf env rid ++ [m] := by
  obtain ⟨st, hst⟩ : ∃ st, dictGet? env.states rid = some st := by
    cases hd : dictGet? env.states rid with
    | none => exact absurd h ((dictGet?_eq_none_iff _ _).1 hd)
    | some st => exact ⟨st, rfl⟩
  simp [put_message, hst, inboxOf, dictGet?_insert_self]

theorem inboxOf_put_message_ne (env : Env) (rid' rid : Nat) (m : Message)
    (h : rid ≠ rid') :
    inboxOf (put_message env rid' m) rid = inboxOf env rid := by
  cases hd : dictGet? env.states rid' with
  | none => simp [put_message, hd]
  | some st => simp [put_message, hd, inboxOf, dictGet?_insert_ne _ _ _ _ h]

theorem deliver_loop_roles (m : Message) (l : List (Nat × List String)) (env : Env)
    (found : Bool) : (deliver_loop m l env found).1.roles = env.roles := by
  induction l generalizing env found with
  | nil => rfl
  | cons p rest ih =>
      by_cases h : m.is_recipient p.2 <;>
        simp [deliver_loop, h, ih, put_message_roles]

theorem deliver_loop_consumers (m : Message) (l : List (Nat × List String)) (env : Env)
    (found : Bool) : (deliver_loop m l env found).1.consumers = env.consumers := by
  induction l generalizing env found with
  | nil => rfl
  | cons p rest ih =>
      by_cases h : m.is_recipient p.2 <;>
        simp [deliver_loop, h, ih, put_message_consumers]

theorem deliver_loop_found (m : Message) (l : List (Nat × List String)) (env : Env)
    (found : Bool) :
    (deliver_loop m l env found).2 = (found || l.any fun p => m.is_recipient p.2) := by
  induction l generalizing env found with
  | nil => simp [deliver_loop]
  | cons p rest ih =>
      by_cases h : m.is_recipient p.2 <;> simp [deliver_loop, h, ih]

theorem deliver_loop_inbox_not_mem (m : Message) (l : List (Nat × List String))
    (env : Env) (found : Bool) (rid : Nat) (h : rid ∉ dkeys l) :
    inboxOf (deliver_loop m l env found).1 rid = inboxOf env rid := by
  induction l generalizing env found with
  | nil => rfl
  | cons p rest ih =>
      have h1 : rid ≠ p.1 ∧ rid ∉ dkeys rest := by
        simpa [dkeys, not_or] using h
      by_cases hm : m.is_recipient p.2
      · rw [deliver_loop, if_pos hm, ih _ _ h1.2,
          inboxOf_put_message_ne env p.1 rid m h1.1]
      · rw [deliver_loop, if_neg hm, ih _ _ h1.2]

theorem deliver_loop_inbox_mem (m : Message) (l : List (Nat × List String))
    (env : Env) (found : Bool) (rid : Nat) (T : List String)
    (hnd : (dkeys l).Nodup) (hmem : (rid, T) ∈ l) (hst : rid ∈ dkeys env.states) :
    inboxOf (deliver_loop m l env found).1 rid =
      if m.is_recipient T then inboxOf env rid ++ [m] else inboxOf env rid := by
  induction l generalizing env found with
  | nil => simp at hmem
  | cons p rest ih =>
      simp only [dkeys, List.map_cons, List.nodup_cons] at hnd
      rcases List.mem_cons.1 hmem with he | he
      · have hp1 : p.1 = rid := by rw [← he]
        have hp2 : p.2 = T := by rw [← he]
        have hnot : rid ∉ dkeys rest := by
          rw [← hp1]
          exact fun hc => hnd.1 (by simpa [dkeys] using hc)
        by_cases hm : m.is_recipient T
        · rw [deliver_loop, if_pos (by rw [hp2]; exact hm), hp1,
            deliver_loop_inbox_not_mem m rest _ true rid hnot,
            inboxOf_put_message_self env rid m hst, if_pos hm]
        · rw [deliver_loop, if_neg (by rw [hp2]; exact hm),
            deliver_loop_inbox_not_mem m rest _ found rid hnot, if_neg hm]
      · have hrid : rid ∈ dkeys rest := by
          simpa [dkeys] using List.mem_map_of_mem Prod.fst he
        have hne : rid ≠ p.1 := fun heq => hnd.1 (by simpa [dkeys, heq] using hrid)
        by_cases hm : m.is_recipient p.2
        · rw [deliver_loop, if_pos hm,
            ih (put_message env p.1 m) true hnd.2 he
              (mem_states_put_message env p.1 m rid hst),
            inboxOf_put_message_ne env p.1 rid m hne]
        · rw [deliver_loop, if_neg hm, ih env found hnd.2 he hst]

theorem publish_message_env_roles (env : Env) (m : Message) :
    (publish_message env m).env.roles = env.roles := by
  simp [publish_message, deliver_loop_roles]

theorem publish_message_env_consumers (env : Env) (m : Message) :
    (publish_message env m).env.consumers = env.consumers := by
  simp [publish_message, deliver_loop_consumers]

/-- Shared routing specification: what `publish_message` does to the inbox of
a role that has a subscription entry `(rid, T)`. -/
theorem publish_inbox_spec (env : Env) (m : Message) (rid : Nat) (T : List String)
    (hnd : (dkeys env.consumers).Nodup) (hmem : (rid, T) ∈ env.consumers)
    (hst : rid ∈ dkeys env.states) :
    inboxOf (publish_message env m).env rid =
      if m.is_recipient T then inboxOf env rid ++ [m] else inboxOf env rid := by
  simpa [publish_message] using
    deliver_loop_inbox_mem m env.consumers env false rid T hnd hmem hst

end EnvLemmas

section RunLemmas

theorem foldl_round_step_snd (behave : Nat → RoleState → RoleState)
    (l : List (String × Nat)) (e : Env) (acc : List Nat) :
    (l.foldl (round_step behave) (e, acc)).2 = acc ++ l.map Prod.snd := by
  induction l generalizing e acc with
  | nil => simp
  | cons p rest ih => simp [List.foldl_cons, round_step, ih]

theorem foldl_round_step_roles (behave : Nat → RoleState → RoleState)
    (l : List (String × Nat)) (e : Env) (acc : List Nat) :
    (l.foldl (round_step behave) (e, acc)).1.roles = e.roles := by
  induction l generalizing e acc with
  | nil => rfl
  | cons p rest ih =>
      cases hd : dictGet? e.states p.2 <;>
        simp [List.foldl_cons, round_step, hd, ih]

theorem foldl_round_step_consumers (behave : Nat → RoleState → RoleState)
    (l : List (String × Nat)) (e : Env) (acc : List Nat) :
    (l.foldl (round_step behave) (e, acc)).1.consumers = e.consumers := by
  induction l generalizing e acc with
  | nil => rfl
  | cons p rest ih =>
      cases hd : dictGet? e.states p.2 <;>
        simp [List.foldl_cons, round_step, hd, ih]

theorem run_round_trace (behave : Nat → RoleState → RoleState) (env : Env) :
    (run_round behave env).2 = dvalues env.roles := by
  simpa [run_round, dvalues] using foldl_round_step_snd behave env.roles env []

theorem run_round_roles (behave : Nat → RoleState → RoleState) (env : Env) :
    (run_round behave env).1.roles = env.roles :=
  foldl_round_step_roles behave env.roles env []

theorem run_round_consumers (behave : Nat → RoleState → RoleState) (env : Env) :
    (run_round behave env).1.consumers = env.consumers :=
  foldl_round_step_consumers behave env.roles env []

theorem run_rounds_eq (behave : Nat → RoleState → RoleState) (env : Env) (k : Nat) :
    (run behave env k).rounds = List.replicate k (dvalues env.roles) := by
  induction k generalizing env with
  | zero => rfl
  | succ k ih =>
      simp [run, run_round_trace, ih, List.replicate_succ, run_round_roles]

theorem run_idleLogs_length (behave : Nat → RoleState → RoleState) (env : Env) (k : Nat) :
    (run behave env k).idleLogs.length = k := by
  induction k generalizing env with
  | zero => rfl
  | succ k ih => simp [run, ih]

theorem run_env_roles (behave : Nat → RoleState → RoleState) (env : Env) (k : Nat) :
    (run behave env k).env.roles = env.roles := by
  induction k generalizing env with
  | zero => rfl
  | succ k ih => simp [run, ih, run_round_roles]

theorem run_env_consumers (behave : Nat → RoleState → RoleState) (env : Env) (k : Nat) :
    (run behave env k).env.consumers = env.consumers := by
  induction k generalizing env with
  | zero => rfl
  | succ k ih => simp [run, ih, run_round_consumers]

theorem count_flatten_replicate (k : Nat) (l : List Nat) (rid : Nat) :
    ((List.replicate k l).flatten.count rid) = k * l.count rid := by
  induction k with
  | zero => simp
  | succ k ih =>
      simp [List.replicate_succ, List.count_append, ih, Nat.succ_mul]
      ring

end RunLemmas

section InvariantLemmas

/-- Both directions of the claimed registry/subscription-table invariant:
the part the code maintains is that every registered role id has a
subscription entry, and that the table has no duplicate entries. -/
def WellFormed (env : Env) : Prop :=
  (∀ rid ∈ dvalues env.roles, rid ∈ dkeys env.consumers) ∧ (dkeys env.consumers).Nodup

theorem wf_add_role (env : Env) (rid : Nat) (st : RoleState)
    (h : WellFormed env) : WellFormed (add_role env rid st) := by
  constructor
  · intro rid' h'
    simp only [add_role, set_subscribed_tags] at h' ⊢
    rcases mem_dvalues_insert _ _ _ _ h' with he | he
    · exact (mem_dkeys_insert _ _ _ _).2 (Or.inl he)
    · exact (mem_dkeys_insert _ _ _ _).2 (Or.inr (h.1 rid' he))
  · exact nodup_dkeys_insert _ _ _ h.2

theorem wf_add_roles (env : Env) (rs : List (Nat × RoleState))
    (h : WellFormed env) : WellFormed (add_roles env rs) := by
  induction rs generalizing env with
  | nil => exact h
  | cons p rest ih => exact ih _ (wf_add_role env p.1 p.2 h)

theorem wf_set_subscribed_tags (env : Env) (rid : Nat) (tags : List String)
    (h : WellFormed env) : WellFormed (set_subscribed_tags env rid tags) := by
  constructor
  · intro rid' h'
    simp only [set_subscribed_tags] at h' ⊢
    exact (mem_dkeys_insert _ _ _ _).2 (Or.inr (h.1 rid' h'))
  · exact nodup_dkeys_insert _ _ _ h.2

theorem wf_publish (env : Env) (m : Message)
    (h : WellFormed env) : WellFormed (publish_message env m).env := by
  unfold WellFormed at h ⊢
  rw [publish_message_env_roles, publish_message_env_consumers]
  exact h

theorem wf_run (env : Env) (behave : Nat → RoleState → RoleState) (k : Nat)
    (h : WellFormed env) : WellFormed (run behave env k).env := by
  unfold WellFormed at h ⊢
  rw [run_env_roles, run_env_consumers]
  exact h

theorem wf_applyOp (env : Env) (op : Op) (h : WellFormed env) :
    WellFormed (applyOp env op) := by
  cases op with
  | addRole rid st => exact wf_add_role env rid st h
  | addRoles rs => exact wf_add_roles env rs h
  | setTags rid tags => exact wf_set_subscribed_tags env rid tags h
  | publish m => exact wf_publish env m h
  | runRounds behave k => exact wf_run env behave k h

theorem wf_applyOps (env : Env) (ops : List Op) (h : WellFormed env) :
    WellFormed (applyOps env ops) := by
  induction ops generalizing env with
  | nil => exact h
  | cons op rest ih => exact ih _ (wf_applyOp env op h)

theorem wf_empty : WellFormed ({} : Env) := by
  constructor
  · intro rid h
    simp [dvalues] at h
  · simp [dkeys]

end InvariantLemmas

section ConcreteObjects

/-- Role object 0 of the test scenarios: profile `"A"`, idle, subscribed to
tag `"t"`. -/
def roleA : RoleState :=
  { profile := "A", is_idle := true, subscribed_tags := ["t"], inbox := [] }

/-- Role object 1 of the test scenarios: same profile `"A"`, no tags. -/
def roleB : RoleState :=
  { profile := "A", is_idle := true, subscribed_tags := [], inbox := [] }

/-- Role with an empty profile string. -/
def roleNoProfile : RoleState :=
  { profile := "", is_idle := true, subscribed_tags := [], inbox := [] }

/-- Message addressed to tag `"t"`. -/
def msgT : Message :=
  { dump := "m1", is_recipient := fun tags => tags.contains "t" }

/-- Message addressed to tag `"b"`. -/
def msgB : Message :=
  { dump := "m2", is_recipient := fun tags => tags.contains "b" }

/-- Environment holding the single role object 0. -/
def envA : Env := add_role {} 0 roleA

/-- Environment after registering role objects 0 and 1 under the same
profile `"A"` (object 1 supersedes object 0 in the registry). -/
def dupEnv : Env := applyOps {} [Op.addRole 0 roleA, Op.addRole 1 roleB]

end ConcreteObjects

/-- C1: for every actor registered in the subscription table with tag set `T`
and every message `m`, `publish_message env m` delivers `m` to that actor via
`put_message` (the message is appended to its inbox) if and only if
`m.is_recipient T` is true; when the predicate is false the inbox is
unchanged, and a matching actor receives the message exactly once. -/
theorem publish_delivers_iff (env : Env) (m : Message) (rid : Nat) (T : List String)
    (hnd : (dkeys env.consumers).Nodup) (hmem : (rid, T) ∈ env.consumers)
    (hst : rid ∈ dkeys env.states) :
    inboxOf (publish_message env m).env rid =
      if m.is_recipient T then inboxOf env rid ++ [m] else inboxOf env rid :=
  publish_inbox_spec env m rid T hnd hmem hst

/-- Witness for C1: in `envA`, role 0 subscribes to `"t"` and `msgT` is
addressed to `"t"`, so publishing delivers it to role 0. -/
theorem publish_delivers_iff_witness :
    inboxOf (publish_message envA msgT).env 0 = inboxOf envA 0 ++ [msgT] := by
  have hc : msgT.is_recipient ["t"] = true := by decide
  have h := publish_delivers_iff envA msgT 0 ["t"] (by decide) (by decide) (by decide)
  simpa [hc] using h

/-- C2: `publish_message` returns `true` on every environment and message
(also with an empty subscription table or no matching actor); it always logs
the message dump, and adds the "no recipients" warning exactly when no
subscription entry matched.  It is a total function, so no exception is
possible. -/
theorem publish_always_returns_true (env : Env) (m : Message) :
    (publish_message env m).ret = true ∧
    (publish_message env m).logs =
      (if env.consumers.any (fun p => m.is_recipient p.2)
       then [String.append "publish_message: " m.dump]
       else [String.append "publish_message: " m.dump,
             String.append "Message no recipients: " m.dump]) := by
  refine ⟨rfl, ?_⟩
  simp only [publish_message, deliver_loop_found, Bool.false_or]
  by_cases h : env.consumers.any (fun p => m.is_recipient p.2) <;> simp [h]

/-- C3: registering two roles with the same profile is last-write-wins:
after the two `add_role` calls, `get_role` on that profile returns the second
role, and both registrations are total function applications (no error). -/
theorem add_role_last_write_wins (env : Env) (id1 id2 : Nat) (st1 st2 : RoleState)
    (h : st1.profile = st2.profile) :
    get_role (add_role (add_role env id1 st1) id2 st2) st1.profile = some id2 := by
  simp only [get_role, add_role, set_subscribed_tags, h]
  exact dictGet?_insert_self _ _ _

/-- Witness for C3: `roleA` then `roleB`, both with profile `"A"`. -/
theorem add_role_last_write_wins_witness :
    get_role (add_role (add_role ({} : Env) 0 roleA) 1 roleB) "A" = some 1 :=
  add_role_last_write_wins {} 0 1 roleA roleB rfl

/-- C4: `is_idle` is `true` iff every role in the registry has its own
`is_idle` flag set; with no registered roles the condition is vacuous, and a
single non-idle role falsifies it. -/
theorem is_idle_iff_all_idle (env : Env) :
    is_idle env = true ↔
      ∀ p ∈ env.roles, ∀ st, dictGet? env.states p.2 = some st →
        st.is_idle = true := by
  unfold is_idle
  rw [List.all_eq_true]
  constructor
  · intro h p hp st hst
    have h2 := h p hp
    simpa [hst] using h2
  · intro h p hp
    cases hst : dictGet? env.states p.2 with
    | none => simp
    | some st => simpa using h p hp st hst

/-- Witness for C4: `envA` holds the single idle role 0, so the aggregate is
idle. -/
theorem is_idle_iff_all_idle_witness : is_idle envA = true := by
  apply (is_idle_iff_all_idle envA).mpr
  intro p hp st hst
  have hroles : envA.roles = [("A", 0)] := by decide
  rw [hroles] at hp
  have hp' : p = ("A", 0) := by simpa using hp
  subst hp'
  have hstates : envA.states = [(0, roleA)] := rfl
  rw [hstates] at hst
  simp [dictGet?] at hst
  rw [← hst]
  rfl

/-- C5: `get_role` returns the `none` sentinel exactly for names absent from
the registry (and is total, never raising), and any `some` answer is the
stored entry for that name. -/
theorem get_role_not_found_sentinel (env : Env) (name : String) :
    (get_role env name = none ↔ name ∉ dkeys env.roles) ∧
    ∀ rid, get_role env name = some rid → (name, rid) ∈ env.roles :=
  ⟨dictGet?_eq_none_iff env.roles name, fun rid h => dictGet?_mem env.roles name rid h⟩

/-- Witness for C5: an unknown name in `envA` yields `none`. -/
theorem get_role_not_found_sentinel_witness : get_role envA "missing" = none :=
  (get_role_not_found_sentinel envA "missing").1.mpr (by decide)

/-- C6: `set_subscribed_tags` fully replaces the previous tag set: after
setting `t1` then `t2` for the same role, `get_subscribed_tags` reads exactly
`t2`, and `publish_message` routes to that role according to `t2` alone. -/
theorem set_subscribed_tags_replaces (env : Env) (rid : Nat) (t1 t2 : List String)
    (m : Message) (hnd : (dkeys env.consumers).Nodup) (hst : rid ∈ dkeys env.states) :
    get_subscribed_tags
        (set_subscribed_tags (set_subscribed_tags env rid t1) rid t2) rid = t2 ∧
    inboxOf (publish_message
        (set_subscribed_tags (set_subscribed_tags env rid t1) rid t2) m).env rid =
      (if m.is_recipient t2 then inboxOf env rid ++ [m] else inboxOf env rid) := by
  have hget : dictGet?
      (set_subscribed_tags (set_subscribed_tags env rid t1) rid t2).consumers rid
        = some t2 := by
    simp only [set_subscribed_tags]
    exact dictGet?_insert_self _ _ _
  constructor
  · simp [get_subscribed_tags, hget]
  · have hnd2 : (dkeys (set_subscribed_tags
        (set_subscribed_tags env rid t1) rid t2).consumers).Nodup := by
      simp only [set_subscribed_tags]
      exact nodup_dkeys_insert _ _ _ (nodup_dkeys_insert _ _ _ hnd)
    exact publish_inbox_spec _ m rid t2 hnd2 (dictGet?_mem _ _ _ hget) hst

/-- Witness for C6: in `envA`, setting role 0's tags to `["a"]` then `["b"]`
leaves exactly `["b"]` stored. -/
theorem set_subscribed_tags_replaces_witness :
    get_subscribed_tags
      (set_subscribed_tags (set_subscribed_tags envA 0 ["a"]) 0 ["b"]) 0 = ["b"] :=
  (set_subscribed_tags_replaces envA 0 ["a"] ["b"] msgB (by decide) (by decide)).1

/-- C7 counterexample: after `add_role` twice with the same profile (a legal
sequence of public operations), role object 0 still has a subscription-table
entry but is no longer present in the registry, so the claimed two-sided
invariant fails. -/
theorem subscription_invariant_cex :
    0 ∈ dkeys dupEnv.consumers ∧ 0 ∉ dvalues dupEnv.roles := by decide

/-- C7 amended: after any sequence of public operations started from the
empty environment, every role id present in the registry has exactly one
entry in the subscription table (it is a key of `consumers`, whose keys are
duplicate-free); the converse containment claimed by the spec does not hold
(see the counterexample). -/
theorem registry_subscription_invariant (ops : List Op) :
    (∀ rid ∈ dvalues (applyOps {} ops).roles,
        rid ∈ dkeys (applyOps {} ops).consumers) ∧
    (dkeys (applyOps {} ops).consumers).Nodup :=
  wf_applyOps {} ops wf_empty

/-- C8 counterexample: registering a role whose profile is the empty string
is not rejected; it is silently inserted into the registry keyed by `""`. -/
theorem add_role_empty_profile_cex :
    get_role (add_role {} 0 roleNoProfile) "" = some 0 ∧
    dvalues (add_role {} 0 roleNoProfile).roles = [0] := by decide

/-- C8 amended: `add_role` performs no validation of the profile: a role with
an empty profile is silently inserted into the registry keyed by the empty
string, exactly like any other key, and `get_role ""` returns it. -/
theorem add_role_empty_profile_inserts (env : Env) (rid : Nat) (st : RoleState)
    (h : st.profile = "") :
    get_role (add_role env rid st) "" = some rid := by
  simp only [get_role, add_role, set_subscribed_tags]
  rw [h]
  exact dictGet?_insert_self _ _ _

/-- Witness for the amended C8. -/
theorem add_role_empty_profile_inserts_witness :
    get_role (add_role ({} : Env) 1 roleNoProfile) "" = some 1 :=
  add_role_empty_profile_inserts {} 1 roleNoProfile rfl

/-- C9: `run behave env k` performs `k` sequential rounds: the invocation
trace is `k` copies of the registry's id list (each round fires every
registered role once and completes before the next round starts), each
registered role's `run()` is invoked exactly once per round and exactly `k`
times in total, and the aggregate idleness is logged once after each round. -/
theorem run_invokes_each_role_k_times (env : Env)
    (behave : Nat → RoleState → RoleState) (k : Nat) (rid : Nat)
    (hmem : rid ∈ dvalues env.roles) (hnd : (dvalues env.roles).Nodup) :
    (run behave env k).rounds = List.replicate k (dvalues env.roles) ∧
    (∀ tr ∈ (run behave env k).rounds, tr.count rid = 1) ∧
    ((run behave env k).rounds.flatten.count rid = k) ∧
    (run behave env k).idleLogs.length = k := by
  have h1 := run_rounds_eq behave env k
  have hcount : (dvalues env.roles).count rid = 1 :=
    List.count_eq_one_of_mem hnd hmem
  refine ⟨h1, ?_, ?_, run_idleLogs_length behave env k⟩
  · intro tr htr
    rw [h1] at htr
    rw [List.eq_of_mem_replicate htr]
    exact hcount
  · rw [h1, count_flatten_replicate, hcount, Nat.mul_one]

/-- Witness for C9: two rounds over `envA` invoke role 0 exactly twice. -/
theorem run_invokes_each_role_k_times_witness :
    ((run (fun _ st => st) envA 2).rounds.flatten.count 0 = 2) :=
  (run_invokes_each_role_k_times envA (fun _ st => st) 2 0
    (by decide) (by decide)).2.2.1

/-- C10: registering `st2` under the same profile as the earlier `st1` leaves
`st1`'s subscription entry intact: `get_role` now answers with the new role
id, yet a message matching `st1`'s tags is still delivered to the superseded
role object. -/
theorem superseded_role_still_receives (env : Env) (id1 id2 : Nat)
    (st1 st2 : RoleState) (m : Message)
    (hprof : st1.profile = st2.profile) (hne : id1 ≠ id2)
    (hnd : (dkeys env.consumers).Nodup)
    (hmatch : m.is_recipient st1.subscribed_tags = true) :
    get_role (add_role (add_role env id1 st1) id2 st2) st1.profile = some id2 ∧
    inboxOf (publish_message (add_role (add_role env id1 st1) id2 st2) m).env id1 =
      inboxOf (add_role (add_role env id1 st1) id2 st2) id1 ++ [m] := by
  constructor
  · simp only [get_role, add_role, set_subscribed_tags, hprof]
    exact dictGet?_insert_self _ _ _
  · have hcons : (add_role (add_role env id1 st1) id2 st2).consumers =
        dictInsert (dictInsert env.consumers id1 st1.subscribed_tags) id2
          st2.subscribed_tags := rfl
    have hget : dictGet? (add_role (add_role env id1 st1) id2 st2).consumers id1 =
        some st1.subscribed_tags := by
      rw [hcons, dictGet?_insert_ne _ _ _ _ hne, dictGet?_insert_self]
    have hnd2 : (dkeys (add_role (add_role env id1 st1) id2 st2).consumers).Nodup := by
      rw [hcons]
      exact nodup_dkeys_insert _ _ _ (nodup_dkeys_insert _ _ _ hnd)
    have hstk : id1 ∈ dkeys (add_role (add_role env id1 st1) id2 st2).states := by
      have hs : (add_role (add_role env id1 st1) id2 st2).states =
          dictInsert (dictInsert env.states id1 st1) id2 st2 := rfl
      rw [hs]
      exact (mem_dkeys_insert _ _ _ _).2
        (Or.inr ((mem_dkeys_insert _ _ _ _).2 (Or.inl rfl)))
    have h := publish_inbox_spec (add_role (add_role env id1 st1) id2 st2) m id1
      st1.subscribed_tags hnd2 (dictGet?_mem _ _ _ hget) hstk
    simpa [hmatch] using h

/-- Witness for C10: `roleA` (id 0) superseded by `roleB` (id 1) under
profile `"A"`; `msgT` matches `roleA`'s tags and is still delivered to
object 0. -/
theorem superseded_role_still_receives_witness :
    get_role (add_role (add_role ({} : Env) 0 roleA) 1 roleB) roleA.profile
        = some 1 ∧
    inboxOf (publish_message (add_role (add_role ({} : Env) 0 roleA) 1 roleB)
        msgT).env 0 =
      inboxOf (add_role (add_role ({} : Env) 0 roleA) 1 roleB) 0 ++ [msgT] :=
  superseded_role_still_receives {} 0 1 roleA roleB msgT rfl (by decide)
    (by decide) (by decide)

end MetaGPT
